import Mathlib

/-!
Verification of the node-classification and tree-construction logic of the
checkdocformat repository (src/ai_node_classifier.py, src/main.py).

The Python code is shallowly embedded: pure functions become Lean functions,
a Python `raise` that escapes every handler is modelled by `Option.none`,
floating-point sizes are modelled by `ℚ` (every comparison in the source is
against the literals 12, 14, 16 and the ratio literal 0.8 = 4/5; no input
reachable here is close enough to a threshold for binary rounding to differ),
and Python's `str` is modelled by Lean `String`, with the string operations the
source uses (strip / startswith / endswith / `in` / count / indexing / `[:3]`)
carried out on the underlying character list.
-/

namespace CheckDocFormat

/-- Python `str.strip()`: drop leading and trailing whitespace characters.
(`Char.isWhitespace` covers the ASCII whitespace the repository's inputs
contain; Python also strips some rarer Unicode space characters.) -/
def pyStrip (l : List Char) : List Char :=
  ((l.dropWhile Char.isWhitespace).reverse.dropWhile Char.isWhitespace).reverse

/-- Python `s.startswith(t)` on character lists. -/
def listStarts : List Char → List Char → Bool
  | _, [] => true
  | [], _ :: _ => false
  | a :: as, b :: bs => a == b && listStarts as bs

/-- Python `s.endswith(t)` on character lists. -/
def listEnds (l suffix : List Char) : Bool :=
  listStarts l.reverse suffix.reverse

/-- Python `t in s` (contiguous substring containment) on character lists. -/
def hasSub : List Char → List Char → Bool
  | hay, need =>
    listStarts hay need ||
      (match hay with
       | [] => false
       | _ :: t => hasSub t need)

/-- Python `str.isalpha` on one character, modelled for the character ranges
the repository's inputs exercise: ASCII letters and the CJK Unified Ideographs
block (U+4E00–U+9FFF).  Python's predicate covers all Unicode letters; within
these ranges the two agree. -/
def pyIsAlpha (c : Char) : Bool :=
  c.isAlpha || (0x4E00 ≤ c.toNat && c.toNat ≤ 0x9FFF)

/-- The Chinese numerals string `'一二三四五六七八九十'` from
`ai_node_classifier.py` (membership tests `x[0] in '一二三四五六七八九十'`). -/
def chineseNums : List Char := "一二三四五六七八九十".toList

/-- Matcher for the regex fragment `\d{1,2}ch` (1–2 decimal digits followed by
the literal `ch`), returning the rest of the input on success.  Implements the
greedy-with-backtracking behaviour of Python `re`. -/
def mdTail (ch : Char) : List Char → Option (List Char)
  | a :: b :: c :: rest =>
    if a.isDigit && b.isDigit && c == ch then some rest
    else if a.isDigit && b == ch then some (c :: rest)
    else none
  | [a, b] => if a.isDigit && b == ch then some [] else none
  | _ => none

/-- Match of the date regex `\d{4}年\d{1,2}月\d{1,2}日` anchored at the head of
the character list. -/
def dateAt : List Char → Bool
  | a :: b :: c :: d :: e :: rest =>
    a.isDigit && b.isDigit && c.isDigit && d.isDigit && e == '年' &&
      (match mdTail '月' rest with
       | some r2 => (mdTail '日' r2).isSome
       | none => false)
  | _ => false

/-- Unanchored search for the date regex, modelling `re.search` in
`_fallback_classification`. -/
def hasDate : List Char → Bool
  | [] => false
  | l@(_ :: t) => dateAt l || hasDate t

/-- `NodeClassificationInfo` from ai_node_classifier.py.  `outline_level` and
`alignment` are dicts in Python, always of the shape `{'value': v, ...}` when
present; they are modelled by the optional `'value'` entry. -/
structure NodeClassificationInfo where
  content : String
  font : String
  size : ℚ
  bold : Bool
  outline_level : Option String
  alignment : Option String

/-- The separator glyph set `set('—―-_*＊×※＝=')` of `_is_separator`. -/
def separator_chars : List Char := "—―-_*＊×※＝=".toList

/-- Condition (a) of `_is_separator`: at least 80 % of the distinct characters
of the stripped text are separator glyphs, and the stripped text has length
≥ 3.  The source compares `len(content_chars & separator_chars) /
len(content_chars) >= 0.8`; for positive denominators this is exactly
`5 * |intersection| ≥ 4 * |distinct|` (see `sep_ratio_cond_eq_div`). -/
def sep_ratio_cond (l : List Char) : Bool :=
  let ls := pyStrip l
  let distinct := ls.dedup
  decide (0 < distinct.length) &&
    decide (5 * (distinct.filter (fun c => separator_chars.contains c)).length ≥
      4 * distinct.length) &&
    decide (ls.length ≥ 3)

/-- Condition (b) of `_is_separator`: the per-glyph repetition patterns
(`count('—') >= 3`, …, `count('-') >= 5`, …). -/
def sep_count_cond (l : List Char) : Bool :=
  let ls := pyStrip l
  decide (ls.count '—' ≥ 3) || decide (ls.count '―' ≥ 3) ||
  decide (ls.count '-' ≥ 5) || decide (ls.count '_' ≥ 5) ||
  decide (ls.count '*' ≥ 3) || decide (ls.count '＊' ≥ 3) ||
  decide (ls.count '=' ≥ 3) || decide (ls.count '＝' ≥ 3)

/-- `AINodeClassifier._is_separator`. -/
def _is_separator (l : List Char) : Bool :=
  sep_ratio_cond l || sep_count_cond l

/-- `AINodeClassifier._is_list_item`.  The source tries a list of lambda
patterns in order and returns `True` on the first match.  (On the empty string
Python would raise at `x[0]`; the method is only ever applied to non-blank
text, and the empty case is modelled as `false`.) -/
def _is_list_item (l : List Char) : Bool :=
  let ls := pyStrip l
  match ls with
  | [] => false
  | c1 :: _ =>
    c1 == '•' || c1 == '·' || c1 == '▪' || c1 == '▫' || c1 == '-' || c1 == '—' ||
    (c1.isDigit && (ls.take 3).contains '.' && decide (ls.length < 100)) ||
    (pyIsAlpha c1 && (ls.take 3).contains '.' && decide (ls.length < 100)) ||
    (chineseNums.contains c1 && (ls.take 3).contains '、' && decide (ls.length < 100))

/-- The closing-phrase literals of `_fallback_classification`. -/
def ending_patterns : List String :=
  ["特此报告", "特此请示", "特此申请", "特此函告", "特此通知", "特此通报"]

/-- The organisational keywords of the addressee rule. -/
def addressee_keywords : List String :=
  ["政府", "委员会", "局", "厅", "部", "院", "处", "科", "司", "公司", "单位"]

/-- The document-type keywords of the document-title rule. -/
def document_types : List String :=
  ["报告", "请示", "申请", "通知", "通报", "函", "意见", "决定", "通告", "公告", "令"]

/-- The bold/size emphasis checks and the `'普通段落'` default at the end of
`_fallback_classification` (lines 193–201). -/
def bold_size_rule (info : NodeClassificationInfo) : String :=
  if info.bold && decide (info.size ≥ 16) then "一级标题"
  else if info.bold && decide (info.size ≥ 14) then "二级标题"
  else if info.bold && decide (info.size ≥ 12) then "三级标题"
  else "普通段落"

/-- The Word outline-level checks (lines 181–191), falling through to
`bold_size_rule` when no branch returns. -/
def after_patterns (info : NodeClassificationInfo) : String :=
  match info.outline_level with
  | some ov =>
    if ov ≠ "正文文本" then
      if ov = "标题1" then "一级标题"
      else if ov = "标题2" then "二级标题"
      else if ov = "标题3" then "三级标题"
      else if ov = "标题4" then "四级标题"
      else bold_size_rule info
    else bold_size_rule info
  | none => bold_size_rule info

/-- The heading-pattern block of `_fallback_classification` (lines 164–179),
falling through to `after_patterns`.  `none` models the `IndexError` raised by
`content_stripped[1]` when the stripped text is exactly `'（'`. -/
def heading_and_rest (info : NodeClassificationInfo) (l : List Char) : Option String :=
  match l with
  | [] => some (after_patterns info)
  | c1 :: rest =>
    if chineseNums.contains c1 && (l.take 3).contains '、' then some "一级标题"
    else if c1 == '（' then
      match rest with
      | [] => none
      | c2 :: _ =>
        if chineseNums.contains c2 && l.contains '）' then some "二级标题"
        else if c2.isDigit && l.contains '）' then some "四级标题"
        else some (after_patterns info)
    else if c1.isDigit && (l.take 3).contains '.' then some "三级标题"
    else some (after_patterns info)

/-- Whether the Python truthy test
`'居中' in alignment_value or 'CENTER' in str(alignment_value)` holds, with
`alignment_value = node_info.alignment.get('value') if node_info.alignment
else ''`. -/
def alignment_is_center (info : NodeClassificationInfo) : Bool :=
  let v := (info.alignment.getD "").toList
  hasSub v "居中".toList || hasSub v "CENTER".toList

/-- The first seven rules of `_fallback_classification`, in source order:
blank → `'空行'`, separator → `'分隔符'`, attachment marker → `'附件'`,
closing phrase → `'结尾'`, trailing colon + organisational keyword →
`'主送机关'`, date pattern → `'落款'`, centered + size ≥ 16 + document-type
keyword → `'发文标题'`.  `none` means none of them fired and control reaches
the list-item rule. -/
def pre_list_rules (info : NodeClassificationInfo) (cs : List Char) : Option String :=
  if cs.isEmpty then some "空行"
  else if _is_separator cs then some "分隔符"
  else if listStarts cs "附件：".toList || listStarts cs "附件:".toList then some "附件"
  else if ending_patterns.any (fun p => hasSub cs p.toList) then some "结尾"
  else if (listEnds cs "：".toList || listEnds cs ":".toList) &&
          addressee_keywords.any (fun k => hasSub cs k.toList) then some "主送机关"
  else if hasDate cs then some "落款"
  else if alignment_is_center info && decide (info.size ≥ 16) &&
          document_types.any (fun d => hasSub cs d.toList) then some "发文标题"
  else none

/-- `AINodeClassifier._fallback_classification`: the seven rules above, then
the list-item rule, then the heading patterns and defaults.  Returns `none`
exactly when the Python original raises an uncaught exception (the
`content_stripped[1]` IndexError). -/
def _fallback_classification (info : NodeClassificationInfo) : Option String :=
  let cs := pyStrip info.content.toList
  match pre_list_rules info cs with
  | some r => some r
  | none => if _is_list_item cs then some "列表项" else heading_and_rest info cs

/-- The `valid_types` list of `AINodeClassifier.classify_node`. -/
def valid_types : List String :=
  ["发文标题", "主送机关", "一级标题", "二级标题", "三级标题", "四级标题",
   "普通段落", "列表项", "结尾", "落款", "附件", "分隔符", "空行"]

/-- Outcome of one call to the remote oracle: a 200 response with a reply
string, or any transport failure / non-200 status / raised exception. -/
inductive OracleResult where
  | ok (s : String)
  | err (msg : String)

/-- `AINodeClassifier.classify_node`: accept the oracle's reply only when
(stripped and lower-cased) it is one of the 13 valid role names, otherwise run
the rule-based fallback; any failure also runs the fallback. -/
def classify_node_ai (oracle : OracleResult) (info : NodeClassificationInfo) :
    Option String :=
  match oracle with
  | .ok s =>
    let c := (pyStrip s.toList).map Char.toLower
    if valid_types.any (fun v => v.toList == c) then some (String.mk c)
    else _fallback_classification info
  | .err _ => _fallback_classification info

/-- `HybridNodeClassifier.classify_node`.  `hasKey` is whether the classifier
was constructed with an API key: without one, `_simple_classification` returns
the literal string `'paragraph'`. -/
def hybrid_classify (hasKey : Bool) (oracle : OracleResult)
    (info : NodeClassificationInfo) : Option String :=
  if hasKey then classify_node_ai oracle info else some "paragraph"

/-! ## Tree construction (`parse_docx_to_tree`, src/main.py) -/

/-- The data `Node.__init__` stores for one paragraph (children aside).
`font`/`size` are `None` on the synthetic root. -/
structure NodeData where
  type : String
  content : String
  font : Option String
  size : Option ℚ
  bold : Bool
deriving DecidableEq

/-- A finished tree node: its paragraph data and its ordered children. -/
inductive PNode where
  | node (data : NodeData) (children : List PNode)

/-- The paragraph data of a node. -/
def PNode.data : PNode → NodeData
  | .node d _ => d

/-- The children list of a node. -/
def PNode.children : PNode → List PNode
  | .node _ cs => cs

mutual

/-- Decidable equality of tree nodes. -/
def decEqPNode : (a b : PNode) → Decidable (a = b)
  | .node d cs, .node d' cs' =>
    match decEq d d', decEqPNodeList cs cs' with
    | isTrue h1, isTrue h2 => isTrue (by rw [h1, h2])
    | isFalse h1, _ => isFalse (by intro h; cases h; exact h1 rfl)
    | _, isFalse h2 => isFalse (by intro h; cases h; exact h2 rfl)

/-- Decidable equality of lists of tree nodes. -/
def decEqPNodeList : (as bs : List PNode) → Decidable (as = bs)
  | [], [] => isTrue rfl
  | [], _ :: _ => isFalse (by intro h; cases h)
  | _ :: _, [] => isFalse (by intro h; cases h)
  | a :: as, b :: bs =>
    match decEqPNode a b, decEqPNodeList as bs with
    | isTrue h1, isTrue h2 => isTrue (by rw [h1, h2])
    | isFalse h1, _ => isFalse (by intro h; cases h; exact h1 rfl)
    | _, isFalse h2 => isFalse (by intro h; cases h; exact h2 rfl)

end

instance : DecidableEq PNode := decEqPNode

/-- The `level_map` dictionary of `parse_docx_to_tree` (src/main.py:701–715). -/
def level_map : List (String × Int) :=
  [("发文标题", 0), ("主送机关", 1), ("一级标题", 2), ("二级标题", 3),
   ("三级标题", 4), ("四级标题", 5), ("列表项", 6), ("普通段落", 7),
   ("结尾", 8), ("落款", 9), ("附件", 10), ("分隔符", 11), ("空行", 12)]

/-- `level_map.get(node_type, 6)`: the rank the stack comparison actually uses,
with the default 6 for any type string absent from the table. -/
def levelOf (t : String) : Int :=
  match level_map.lookup t with
  | some v => v
  | none => 6

/-- One stack frame: a node still open on the stack, with the children already
attached to it (in document order). -/
structure Frame where
  data : NodeData
  children : List PNode

/-- Close a frame into a finished node. -/
def Frame.toNode (f : Frame) : PNode := .node f.data f.children

/-- The builder state: the open non-root frames (`pending`, top first — the
Python stack minus its root element) and the children already attached to the
synthetic root (`rootCh`). -/
structure BState where
  pending : List Frame
  rootCh : List PNode

/-- Continuation of the pop loop once the top frame has been closed into the
node `n`: attach `n` to the next frame, popping that frame too if its rank is
still ≥ `lvl`; attaching past the last frame reaches the root's children. -/
def popWhileAux (lvl : Int) (n : PNode) : List Frame → List PNode → BState
  | [], rc => ⟨[], rc ++ [n]⟩
  | g :: rest, rc =>
    if lvl ≤ levelOf g.data.type then
      popWhileAux lvl (.node g.data (g.children ++ [n])) rest rc
    else ⟨{ g with children := g.children ++ [n] } :: rest, rc⟩

/-- The pop loop `while len(stack) > 1 and current_level <= level_map.get(
stack[-1].type, 6): stack.pop()`.  Each popped frame is closed into a node
owned by the frame below it (ultimately by the root). -/
def popWhile (lvl : Int) : List Frame → List PNode → BState
  | [], rc => ⟨[], rc⟩
  | f :: rest, rc =>
    if lvl ≤ levelOf f.data.type then popWhileAux lvl f.toNode rest rc
    else ⟨f :: rest, rc⟩

/-- Insert one classified paragraph: pop to the right depth, attach the new
node as last child of the new top, and push it (as an open frame). -/
def step (st : BState) (d : NodeData) : BState :=
  let st' := popWhile (levelOf d.type) st.pending st.rootCh
  ⟨⟨d, []⟩ :: st'.pending, st'.rootCh⟩

/-- Fold an already-closed node through the remaining frames at end of input. -/
def collapseAux (n : PNode) : List Frame → List PNode → List PNode
  | [], rc => rc ++ [n]
  | g :: rest, rc => collapseAux (.node g.data (g.children ++ [n])) rest rc

/-- Close every frame remaining on the stack at end of input. -/
def collapse : List Frame → List PNode → List PNode
  | [], rc => rc
  | f :: rest, rc => collapseAux f.toNode rest rc

/-- The paragraph data of the synthetic root, `Node('root', 'Document Root')`. -/
def rootData : NodeData := ⟨"root", "Document Root", none, none, false⟩

/-- The whole tree-construction pass of `parse_docx_to_tree` on an
already-classified sequence. -/
def buildTree (items : List NodeData) : PNode :=
  let st := items.foldl step ⟨[], []⟩
  .node rootData (collapse st.pending st.rootCh)

/-! ### Paragraph extraction and classification inside the parse loop -/

/-- One input paragraph as the parse loop sees it: raw text, the first run's
optional font name / size / bold flag, and the alignment and outline-level
values `extract_paragraph_formatting` computes (that function always stores a
`'value'` entry for both). -/
structure Para where
  text : String
  runFont : Option String
  runSize : Option ℚ
  runBold : Option Bool
  alignment : String
  outline : String

/-- `font = first_run.font.name if first_run and first_run.font.name else
'Default'` — a missing run, a `None` name and an empty (falsy) name all give
`'Default'`. -/
def extract_font (r : Option String) : String :=
  match r with
  | some n => if n = "" then "Default" else n
  | none => "Default"

/-- `size = first_run.font.size.pt if first_run and first_run.font.size else
12.0` — a missing run, a `None` size and a zero (falsy) size all give 12.0. -/
def extract_size (r : Option ℚ) : ℚ :=
  match r with
  | some s => if s = 0 then 12 else s
  | none => 12

/-- `bold = first_run.font.bold if first_run and first_run.font.bold else
False`. -/
def extract_bold (r : Option Bool) : Bool := r.getD false

/-- The per-paragraph body of the `parse_docx_to_tree` loop: a blank paragraph
becomes an `'empty_line'` node directly; otherwise the run attributes are
extracted (with defaults) and the hybrid classifier is consulted.  `none`
models the classification raising out of the loop. -/
def paraToData (hasKey : Bool) (oracle : OracleResult) (p : Para) :
    Option NodeData :=
  let content := String.mk (pyStrip p.text.toList)
  if content = "" then
    some ⟨"empty_line", "[空行]", some "Default", some 12, false⟩
  else
    let font := extract_font p.runFont
    let size := extract_size p.runSize
    let bold := extract_bold p.runBold
    (hybrid_classify hasKey oracle
        ⟨content, font, size, bold, some p.outline, some p.alignment⟩).map
      fun t => ⟨t, content, some font, some size, bold⟩

/-- Classify a whole document, paragraph by paragraph; the oracle outcome may
differ per paragraph index. -/
def classifySeq (hasKey : Bool) (oracle : Nat → OracleResult) :
    Nat → List Para → Option (List NodeData)
  | _, [] => some []
  | i, p :: rest =>
    match paraToData hasKey (oracle i) p with
    | none => none
    | some d =>
      match classifySeq hasKey oracle (i + 1) rest with
      | none => none
      | some ds => some (d :: ds)

/-- `parse_docx_to_tree`: classify every paragraph in order, then fold the
classified sequence into a tree under the synthetic root.  (Classification of
a paragraph depends only on the raw paragraphs, never on the tree built so
far, so running the two phases in sequence is equivalent to the source's
interleaving.) -/
def parse_docx_to_tree (hasKey : Bool) (oracle : Nat → OracleResult)
    (paras : List Para) : Option PNode :=
  (classifySeq hasKey oracle 0 paras).map buildTree

/-! ## Concrete inputs used by the claim theorems -/

/-- A whitespace-only paragraph (no runs, defaulted formatting values). -/
def paraBlank : Para := ⟨"   ", none, none, none, "左对齐", "正文文本"⟩

/-- An ordinary body-text paragraph following it. -/
def paraBody : Para := ⟨"这是正文内容", none, none, none, "左对齐", "正文文本"⟩

/-- The C3 scenario input: `'一、项目概述'`, bold = False, size = 14, other
attributes defaulted (the repository's own `__main__` test case). -/
def infoC3 : NodeClassificationInfo := ⟨"一、项目概述", "黑体", 14, false, none, none⟩

/-- The stripped text `'（'`, on which `content_stripped[1]` raises. -/
def infoParen : NodeClassificationInfo := ⟨"（", "Default", 12, false, none, none⟩

/-- A text of 20 em-dash characters. -/
def infoSep20 : NodeClassificationInfo :=
  ⟨"————————————————————", "宋体", 12, false, none, none⟩

/-- A bullet-led text of total length 121 (well beyond the claimed `< 100`
bound). -/
def longBullet : String := "•" ++ String.mk (List.replicate 120 'a')

/-- `longBullet` as a classifier input. -/
def infoBullet : NodeClassificationInfo := ⟨longBullet, "宋体", 12, false, none, none⟩

/-- The node data the parse loop creates for a blank paragraph. -/
def emptyLineData : NodeData := ⟨"empty_line", "[空行]", some "Default", some 12, false⟩

/-- The node data the parse loop creates for `paraBody` with a failing oracle. -/
def bodyData : NodeData := ⟨"普通段落", "这是正文内容", some "Default", some 12, false⟩

/-- The six leading bullet glyphs of `_is_list_item`'s `startswith` patterns. -/
def bullet_glyphs : List Char := ['•', '·', '▪', '▫', '-', '—']

/-- The guard "the paragraph reached the ListItem rule": none of the seven
rules checked before `_is_list_item` in `_fallback_classification` fired. -/
def reaches_list_rule (info : NodeClassificationInfo) : Bool :=
  (pre_list_rules info (pyStrip info.content.toList)).isNone

/-- Modelled from the claim's wording (C6): "matches a bullet/numbering
pattern (leading bullet glyph, or leading digit+period, or leading Latin
letter+period, or leading Chinese numeral+ideographic comma) AND its total
length is < 100 characters" — the length bound applies to every disjunct and
only Latin (ASCII) letters count. -/
def list_item_claimed (l : List Char) : Bool :=
  let ls := pyStrip l
  (match ls with
   | [] => false
   | c1 :: _ =>
     bullet_glyphs.contains c1 ||
     (c1.isDigit && (ls.take 3).contains '.') ||
     (c1.isAlpha && (ls.take 3).contains '.') ||
     (chineseNums.contains c1 && (ls.take 3).contains '、')) &&
  decide (ls.length < 100)

/-- The amended C6 condition, as the code implements it: a leading bullet
glyph with **no** length bound, or a leading digit / alphabetic character
(any Unicode letter, not only Latin) with `'.'` among the first 3 characters
and length < 100, or a leading Chinese numeral with `'、'` among the first 3
characters and length < 100. -/
def list_item_amended (l : List Char) : Bool :=
  let ls := pyStrip l
  match ls with
  | [] => false
  | c1 :: _ =>
    bullet_glyphs.contains c1 ||
    (c1.isDigit && (ls.take 3).contains '.' && decide (ls.length < 100)) ||
    (pyIsAlpha c1 && (ls.take 3).contains '.' && decide (ls.length < 100)) ||
    (chineseNums.contains c1 && (ls.take 3).contains '、' && decide (ls.length < 100))

/-- A short bullet list item (one of the repository's own test inputs). -/
def infoBulletShort : NodeClassificationInfo :=
  ⟨"• 系统架构设计", "仿宋_GB2312", 14, false, none, none⟩

/-- C5 scenario data: the first Heading1. -/
def h1aData : NodeData := ⟨"一级标题", "一、总体要求", some "黑体", some 16, false⟩

/-- C5 scenario data: a Heading2 under it. -/
def h2Data : NodeData := ⟨"二级标题", "（一）基本原则", some "楷体", some 16, false⟩

/-- C5 scenario data: a body paragraph under the Heading2. -/
def pData : NodeData := ⟨"普通段落", "正文内容。", some "仿宋", some 14, false⟩

/-- C5 scenario data: the second Heading1. -/
def h1bData : NodeData := ⟨"一级标题", "二、主要目标", some "黑体", some 16, false⟩

/-! ### The effective-rank nesting invariant -/

mutual

/-- `nodeOk n`: inside the subtree rooted at `n`, every child's effective rank
(`level_map` lookup with default 6) is strictly greater than its parent's. -/
def nodeOk : PNode → Bool
  | .node d cs => childrenBelow (levelOf d.type) cs

/-- `childrenBelow lvl cs`: every node of `cs` has effective rank strictly
greater than `lvl` and itself satisfies `nodeOk`. -/
def childrenBelow (lvl : Int) : List PNode → Bool
  | [] => true
  | c :: rest => (decide (lvl < levelOf c.data.type) && nodeOk c) && childrenBelow lvl rest

end

/-- A forest in which every tree satisfies `nodeOk`. -/
def forestOk : List PNode → Bool
  | [] => true
  | c :: rest => nodeOk c && forestOk rest

/-- The amended C2 invariant for a whole built tree: the synthetic root's rank
is unconstrained, and below it ranks strictly increase along every edge. -/
def treeOk (root : PNode) : Bool := forestOk root.children

/-- A stack frame whose collected children are valid subtrees of strictly
greater rank. -/
def frameOk (f : Frame) : Bool := childrenBelow (levelOf f.data.type) f.children

/-- The stack invariant: every open frame satisfies `frameOk`, and effective
ranks strictly decrease from the top of the stack downwards. -/
def pendingOk : List Frame → Bool
  | [] => true
  | f :: rest =>
    frameOk f &&
    (match rest with
     | [] => true
     | g :: _ => decide (levelOf g.data.type < levelOf f.data.type)) &&
    pendingOk rest

/-- The whole-state invariant of the builder. -/
def stateOk (st : BState) : Bool := pendingOk st.pending && forestOk st.rootCh

/-! ## Helper lemmas -/

/-- The cross-multiplied form used in `sep_ratio_cond` agrees exactly with the
source's rational comparison `n / d ≥ 0.8` whenever `0 < d`. -/
theorem sep_ratio_cond_eq_div (n d : ℕ) (hd : 0 < d) :
    (5 * n ≥ 4 * d) ↔ ((n : ℚ) / (d : ℚ) ≥ 0.8) := by
  have hdq : (0 : ℚ) < d := by exact_mod_cast hd
  have h08 : (0.8 : ℚ) = 4 / 5 := by norm_num
  constructor
  · intro h
    have h' : (4 : ℚ) * d ≤ 5 * n := by exact_mod_cast h
    have hn : (0.8 : ℚ) * d ≤ n := by rw [h08]; linarith
    exact (le_div_iff₀ hdq).mpr hn
  · intro h
    have h2 : (0.8 : ℚ) ≤ (n : ℚ) / d := h
    have hn : (0.8 : ℚ) * d ≤ n := (le_div_iff₀ hdq).mp h2
    have h' : (4 : ℚ) * d ≤ 5 * n := by rw [h08] at hn; linarith
    exact_mod_cast h'

/-- The bold/size emphasis block always yields one of the 13 role names. -/
theorem bold_size_rule_valid (info : NodeClassificationInfo) :
    bold_size_rule info ∈ valid_types := by
  unfold bold_size_rule
  split_ifs <;> decide

/-- The outline-level block always yields one of the 13 role names. -/
theorem after_patterns_valid (info : NodeClassificationInfo) :
    after_patterns info ∈ valid_types := by
  unfold after_patterns
  cases h : info.outline_level with
  | none => exact bold_size_rule_valid info
  | some ov =>
    dsimp only
    split_ifs <;> first | decide | exact bold_size_rule_valid info

/-- On any stripped text other than the single character `'（'`, the
heading-pattern block returns a valid role. -/
theorem heading_and_rest_total (info : NodeClassificationInfo) (l : List Char)
    (h : l ≠ ['（']) :
    ∃ r, heading_and_rest info l = some r ∧ r ∈ valid_types := by
  cases l with
  | nil => exact ⟨after_patterns info, rfl, after_patterns_valid info⟩
  | cons c1 rest =>
    simp only [heading_and_rest]
    by_cases h1 : (chineseNums.contains c1 && ((c1 :: rest).take 3).contains '、') = true
    · rw [if_pos h1]; exact ⟨_, rfl, by decide⟩
    · rw [if_neg h1]
      by_cases h2 : (c1 == '（') = true
      · rw [if_pos h2]
        cases rest with
        | nil =>
          have hc : c1 = '（' := eq_of_beq h2
          exact absurd (by rw [hc]) h
        | cons c2 rest2 =>
          dsimp only
          by_cases h3 : (chineseNums.contains c2 && (c1 :: c2 :: rest2).contains '）') = true
          · rw [if_pos h3]; exact ⟨_, rfl, by decide⟩
          · rw [if_neg h3]
            by_cases h4 : (c2.isDigit && (c1 :: c2 :: rest2).contains '）') = true
            · rw [if_pos h4]; exact ⟨_, rfl, by decide⟩
            · rw [if_neg h4]; exact ⟨_, rfl, after_patterns_valid info⟩
      · rw [if_neg h2]
        by_cases h5 : (c1.isDigit && ((c1 :: rest).take 3).contains '.') = true
        · rw [if_pos h5]; exact ⟨_, rfl, by decide⟩
        · rw [if_neg h5]; exact ⟨_, rfl, after_patterns_valid info⟩

/-- Whatever role the first seven rules return is one of the 13 role names. -/
theorem pre_list_rules_valid (info : NodeClassificationInfo) (l : List Char)
    (r : String) (h : pre_list_rules info l = some r) : r ∈ valid_types := by
  unfold pre_list_rules at h
  split_ifs at h
  all_goals injection h with h'
  all_goals subst h'
  all_goals decide

/-- A non-blank text satisfying either separator condition is caught by the
separator rule (the second of the seven leading rules). -/
theorem pre_list_rules_sep (info : NodeClassificationInfo) (l : List Char)
    (hne : l ≠ [])
    (hcond : sep_ratio_cond l = true ∨ sep_count_cond l = true) :
    pre_list_rules info l = some "分隔符" := by
  have he : l.isEmpty = false := by
    cases l with
    | nil => exact absurd rfl hne
    | cons a t => rfl
  have hsep : _is_separator l = true := by
    unfold _is_separator
    rcases hcond with h | h <;> simp [h]
  unfold pre_list_rules
  rw [if_neg (by simp [he]), if_pos hsep]

/-- On any input whose stripped text is not the single character `'（'`, the
rule-based fallback returns a valid role. -/
theorem fallback_total (info : NodeClassificationInfo)
    (h : pyStrip info.content.toList ≠ ['（']) :
    ∃ r, _fallback_classification info = some r ∧ r ∈ valid_types := by
  simp only [_fallback_classification]
  cases hp : pre_list_rules info (pyStrip info.content.toList) with
  | some r => exact ⟨r, rfl, pre_list_rules_valid info _ r hp⟩
  | none =>
    dsimp only
    by_cases hl : _is_list_item (pyStrip info.content.toList) = true
    · rw [if_pos hl]
      exact ⟨"列表项", rfl, by decide⟩
    · rw [if_neg hl]
      exact heading_and_rest_total info _ h

/-- `_is_list_item` computes exactly the amended C6 condition. -/
theorem is_list_item_eq_amended (l : List Char) :
    _is_list_item l = list_item_amended l := by
  simp only [_is_list_item, list_item_amended]
  cases pyStrip l with
  | nil => rfl
  | cons c1 rest =>
    simp only [bullet_glyphs, List.contains, List.elem]
    cases c1 == '•' <;> cases c1 == '·' <;> cases c1 == '▪' <;>
      cases c1 == '▫' <;> cases c1 == '-' <;> cases c1 == '—' <;> simp

/-- The heading-pattern block never yields the ListItem role. -/
theorem heading_and_rest_ne_list (info : NodeClassificationInfo) (l : List Char) :
    heading_and_rest info l ≠ some "列表项" := by
  have hb : bold_size_rule info ≠ "列表项" := by
    unfold bold_size_rule
    split_ifs <;> decide
  have ha : after_patterns info ≠ "列表项" := by
    unfold after_patterns
    cases info.outline_level with
    | none => exact hb
    | some ov =>
      dsimp only
      split_ifs <;> first | decide | exact hb
  cases l with
  | nil => simpa [heading_and_rest] using ha
  | cons c1 rest =>
    simp only [heading_and_rest]
    by_cases h1 : (chineseNums.contains c1 && ((c1 :: rest).take 3).contains '、') = true
    · rw [if_pos h1]; decide
    · rw [if_neg h1]
      by_cases h2 : (c1 == '（') = true
      · rw [if_pos h2]
        cases rest with
        | nil => simp
        | cons c2 rest2 =>
          dsimp only
          by_cases h3 : (chineseNums.contains c2 && (c1 :: c2 :: rest2).contains '）') = true
          · rw [if_pos h3]; decide
          · rw [if_neg h3]
            by_cases h4 : (c2.isDigit && (c1 :: c2 :: rest2).contains '）') = true
            · rw [if_pos h4]; decide
            · rw [if_neg h4]; simpa using ha
      · rw [if_neg h2]
        by_cases h5 : (c1.isDigit && ((c1 :: rest).take 3).contains '.') = true
        · rw [if_pos h5]; decide
        · rw [if_neg h5]; simpa using ha

/-! ### Preservation of the effective-rank invariant -/

/-- Closing a valid frame yields a valid subtree. -/
theorem nodeOk_toNode (f : Frame) : nodeOk f.toNode = frameOk f := rfl

/-- Appending one node to a sibling list, componentwise. -/
theorem childrenBelow_append (lvl : Int) (cs : List PNode) (c : PNode) :
    childrenBelow lvl (cs ++ [c]) =
      (childrenBelow lvl cs && (decide (lvl < levelOf c.data.type) && nodeOk c)) := by
  induction cs with
  | nil => simp [childrenBelow]
  | cons a t ih => simp [childrenBelow, ih, Bool.and_assoc]

/-- Appending one valid tree to a valid forest. -/
theorem forestOk_append (rc : List PNode) (n : PNode) :
    forestOk (rc ++ [n]) = (forestOk rc && nodeOk n) := by
  induction rc with
  | nil => simp [forestOk]
  | cons a t ih => simp [forestOk, ih, Bool.and_assoc]

/-- The pop continuation preserves the state invariant, provided the node
being attached is a valid subtree of rank strictly above the stack top; on
return the new stack top (if any) has rank < `lvl`. -/
theorem popWhileAux_ok (lvl : Int) :
    ∀ (p : List Frame) (rc : List PNode) (n : PNode),
      pendingOk p = true → forestOk rc = true → nodeOk n = true →
      (∀ g gs, p = g :: gs → levelOf g.data.type < levelOf n.data.type) →
      stateOk (popWhileAux lvl n p rc) = true ∧
      (∀ f fs, (popWhileAux lvl n p rc).pending = f :: fs →
        ¬ lvl ≤ levelOf f.data.type) := by
  intro p
  induction p with
  | nil =>
    intro rc n hp hrc hn _
    refine ⟨?_, ?_⟩
    · simp [popWhileAux, stateOk, pendingOk, forestOk_append, hrc, hn]
    · intro f fs hf
      simp [popWhileAux] at hf
  | cons g rest ih =>
    intro rc n hp hrc hn hhead
    have hg : levelOf g.data.type < levelOf n.data.type := hhead g rest rfl
    simp only [pendingOk, Bool.and_eq_true] at hp
    obtain ⟨⟨hfg, hchain⟩, hrest⟩ := hp
    unfold frameOk at hfg
    by_cases hle : lvl ≤ levelOf g.data.type
    · rw [show popWhileAux lvl n (g :: rest) rc =
          popWhileAux lvl (.node g.data (g.children ++ [n])) rest rc from by
        simp [popWhileAux, hle]]
      refine ih rc _ hrest hrc ?_ ?_
      · show childrenBelow (levelOf g.data.type) (g.children ++ [n]) = true
        rw [childrenBelow_append]
        simp [hfg, hg, hn]
      · intro g' gs' hgs'
        subst hgs'
        simpa using hchain
    · rw [show popWhileAux lvl n (g :: rest) rc =
          ⟨{ g with children := g.children ++ [n] } :: rest, rc⟩ from by
        simp [popWhileAux, hle]]
      refine ⟨?_, ?_⟩
      · simp only [stateOk, pendingOk, Bool.and_eq_true]
        refine ⟨⟨⟨?_, ?_⟩, hrest⟩, hrc⟩
        · show frameOk { g with children := g.children ++ [n] } = true
          show childrenBelow (levelOf g.data.type) (g.children ++ [n]) = true
          rw [childrenBelow_append]
          simp [hfg, hg, hn]
        · exact hchain
      · intro f fs hf
        injection hf with hf1 _
        subst hf1
        exact hle

/-- The pop loop preserves the state invariant; on return the stack top (if
any) has rank < `lvl`. -/
theorem popWhile_ok (lvl : Int) (p : List Frame) (rc : List PNode)
    (hp : pendingOk p = true) (hrc : forestOk rc = true) :
    stateOk (popWhile lvl p rc) = true ∧
    (∀ f fs, (popWhile lvl p rc).pending = f :: fs →
      ¬ lvl ≤ levelOf f.data.type) := by
  cases p with
  | nil =>
    refine ⟨by simp [popWhile, stateOk, pendingOk, hrc], ?_⟩
    intro f fs hf
    simp [popWhile] at hf
  | cons f rest =>
    by_cases hle : lvl ≤ levelOf f.data.type
    · rw [show popWhile lvl (f :: rest) rc = popWhileAux lvl f.toNode rest rc from by
        simp [popWhile, hle]]
      simp only [pendingOk, Bool.and_eq_true] at hp
      obtain ⟨⟨hff, hchain⟩, hrest⟩ := hp
      refine popWhileAux_ok lvl rest rc f.toNode hrest hrc ?_ ?_
      · rw [nodeOk_toNode]
        exact hff
      · intro g gs hgs
        subst hgs
        simpa using hchain
    · rw [show popWhile lvl (f :: rest) rc = ⟨f :: rest, rc⟩ from by
        simp [popWhile, hle]]
      refine ⟨by simp [stateOk, hp, hrc], ?_⟩
      intro f' fs' hf'
      injection hf' with hf1 _
      subst hf1
      exact hle

/-- Inserting one classified paragraph preserves the state invariant. -/
theorem step_ok (st : BState) (d : NodeData) (h : stateOk st = true) :
    stateOk (step st d) = true := by
  simp only [stateOk, Bool.and_eq_true] at h
  obtain ⟨hp, hrc⟩ := h
  obtain ⟨hst, hpost⟩ := popWhile_ok (levelOf d.type) st.pending st.rootCh hp hrc
  simp only [stateOk, Bool.and_eq_true] at hst
  obtain ⟨hp', hrc'⟩ := hst
  simp only [step, stateOk, pendingOk, Bool.and_eq_true]
  refine ⟨⟨⟨rfl, ?_⟩, hp'⟩, hrc'⟩
  cases hpd : (popWhile (levelOf d.type) st.pending st.rootCh).pending with
  | nil => simp
  | cons g gs =>
    have := hpost g gs hpd
    simp only [decide_eq_true_eq]
    omega

/-- The fold over the whole classified sequence preserves the invariant. -/
theorem foldl_ok (items : List NodeData) :
    ∀ st : BState, stateOk st = true → stateOk (items.foldl step st) = true := by
  induction items with
  | nil => intro st h; exact h
  | cons d rest ih => intro st h; exact ih (step st d) (step_ok st d h)

/-- The final collapse turns a valid state into a valid forest. -/
theorem collapseAux_ok :
    ∀ (p : List Frame) (rc : List PNode) (n : PNode),
      pendingOk p = true → forestOk rc = true → nodeOk n = true →
      (∀ g gs, p = g :: gs → levelOf g.data.type < levelOf n.data.type) →
      forestOk (collapseAux n p rc) = true := by
  intro p
  induction p with
  | nil =>
    intro rc n hp hrc hn _
    simp [collapseAux, forestOk_append, hrc, hn]
  | cons g rest ih =>
    intro rc n hp hrc hn hhead
    have hg : levelOf g.data.type < levelOf n.data.type := hhead g rest rfl
    simp only [pendingOk, Bool.and_eq_true] at hp
    obtain ⟨⟨hfg, hchain⟩, hrest⟩ := hp
    unfold frameOk at hfg
    rw [show collapseAux n (g :: rest) rc =
        collapseAux (.node g.data (g.children ++ [n])) rest rc from rfl]
    refine ih rc _ hrest hrc ?_ ?_
    · show childrenBelow (levelOf g.data.type) (g.children ++ [n]) = true
      rw [childrenBelow_append]
      simp [hfg, hg, hn]
    · intro g' gs' hgs'
      subst hgs'
      simpa using hchain

/-- Collapsing a valid state yields a valid forest. -/
theorem collapse_ok (p : List Frame) (rc : List PNode)
    (hp : pendingOk p = true) (hrc : forestOk rc = true) :
    forestOk (collapse p rc) = true := by
  cases p with
  | nil => exact hrc
  | cons f rest =>
    simp only [pendingOk, Bool.and_eq_true] at hp
    obtain ⟨⟨hff, hchain⟩, hrest⟩ := hp
    refine collapseAux_ok rest rc f.toNode hrest hrc ?_ ?_
    · rw [nodeOk_toNode]
      exact hff
    · intro g gs hgs
      subst hgs
      simpa using hchain

/-! ## Claim theorems -/

/-- **C1** (code_bug): evaluating `parse_docx_to_tree` on a whitespace-only
paragraph followed by an ordinary body paragraph.  The blank paragraph's node
is typed `'empty_line'` — not the classifier's BlankLine role `'空行'` — so the
stack comparison uses the default rank 6, and the following body paragraph
(rank 7) is attached **as its child**: the blank node does acquire a child,
contradicting the claim (and the intent recorded in the source's own comment
`'空行'层级最低，不影响文档结构` on the rank table). -/
theorem C1_blank_node_acquires_child :
    parse_docx_to_tree true (fun _ => .err "timeout") [paraBlank, paraBody] =
      some (.node rootData [.node emptyLineData [.node bodyData []]]) ∧
    (PNode.node emptyLineData [.node bodyData []]).children ≠ [] := by
  constructor
  · decide
  · decide

/-- **C3** (code_bug): with the oracle unavailable, the fallback classifies
`'一、项目概述'` (bold = False, size = 14) as `'列表项'` (ListItem), not
`'一级标题'` (Heading1): the list-item rule is checked **before** the
numbering-pattern rules and its Chinese-numeral pattern matches first.  The
repository's own `__main__` test case expects `'一级标题'` for exactly this
input, so the code contradicts its own test. -/
theorem C3_heading1_scenario_returns_list_item :
    _fallback_classification infoC3 = some "列表项" ∧
    hybrid_classify true (.err "timeout") infoC3 = some "列表项" ∧
    "列表项" ≠ "一级标题" := by
  refine ⟨by decide, by decide, by decide⟩

/-- **C4 counterexample**: constructed with no API key at all (oracle absent),
the classify operation returns the literal string `'paragraph'`
(`_simple_classification`), which is not one of the 13 enumerated roles — the
claim's unrestricted totality fails. -/
theorem C4_counterexample_no_backend_paragraph :
    hybrid_classify false (.err "no key") infoC3 = some "paragraph" ∧
    "paragraph" ∉ valid_types := by
  exact ⟨by decide, by decide⟩

/-- **C4 amended**: with a classifier backend configured (API key present),
for every input and every oracle outcome — success with a valid or invalid
role string, or any transport failure — classification returns one of the 13
enumerated roles, **except** on text that strips to the single character
`'（'`, where the rule-based fallback raises an uncaught IndexError; and with
no backend configured the out-of-enumeration string `'paragraph'` is returned
(see the counterexample). -/
theorem C4_amended_classify_total (oracle : OracleResult)
    (info : NodeClassificationInfo) (h : pyStrip info.content.toList ≠ ['（']) :
    ∃ r, hybrid_classify true oracle info = some r ∧ r ∈ valid_types := by
  cases oracle with
  | err m => simpa [hybrid_classify, classify_node_ai] using fallback_total info h
  | ok s =>
    simp only [hybrid_classify, if_true, classify_node_ai]
    by_cases hv :
        (valid_types.any (fun v => v.toList == (pyStrip s.toList).map Char.toLower)) = true
    · rw [if_pos hv]
      obtain ⟨v, hvmem, hbeq⟩ := List.any_eq_true.mp hv
      have hveq : v.toList = (pyStrip s.toList).map Char.toLower := eq_of_beq hbeq
      refine ⟨String.mk ((pyStrip s.toList).map Char.toLower), rfl, ?_⟩
      rw [← hveq]
      have hmk : String.mk v.toList = v := by cases v; rfl
      rw [hmk]
      exact hvmem
    · rw [if_neg hv]
      exact fallback_total info h

/-- **C4 witness**: the amended totality applied at a concrete input (the C3
paragraph) with a concrete failing oracle. -/
theorem C4_amended_classify_total_witness :
    ∃ r, hybrid_classify true (.err "boom") infoC3 = some r ∧ r ∈ valid_types :=
  C4_amended_classify_total (.err "boom") infoC3 (by decide)

/-- **C8** (code_bug): the parse loop does substitute the documented defaults
for absent attributes — `'Default'` font for a missing or empty run font name,
12 pt for a missing (or falsy) size, `False` for a missing bold flag — but the
classifier is **not** total over its declared domain: on the non-empty
paragraph whose text is exactly `'（'` the fallback raises an uncaught
IndexError (modelled `none`), and the whole parse crashes. -/
theorem C8_defaults_but_classifier_not_total :
    extract_font none = "Default" ∧
    extract_font (some "") = "Default" ∧
    extract_size none = 12 ∧
    extract_bold none = false ∧
    _fallback_classification infoParen = none ∧
    parse_docx_to_tree true (fun _ => .err "timeout")
      [⟨"（", none, none, none, "左对齐", "正文文本"⟩] = none := by
  refine ⟨rfl, rfl, rfl, rfl, by decide, by decide⟩

/-- **C9** (confirmed): with the remote oracle disabled (every call to it
fails), classification is a deterministic function of the paragraph inputs —
two runs, whatever the failure messages, give the same result. -/
theorem C9_rule_path_deterministic (info : NodeClassificationInfo)
    (m₁ m₂ : String) :
    hybrid_classify true (.err m₁) info = hybrid_classify true (.err m₂) info := by
  rfl

/-- **C10** (confirmed): every type string outside the 13 keys of `level_map`
is compared with the default rank 6 — the same rank as `'列表项'` (ListItem)
and **not** the rank 12 of the table's `'空行'` (BlankLine) entry.  In
particular the type `'empty_line'` that the parse loop actually assigns to
blank paragraphs and the type `'paragraph'` returned when no classifier
backend is configured both rank 6. -/
theorem C10_unmapped_types_rank_six :
    (∀ t : String, level_map.lookup t = none → levelOf t = 6) ∧
    levelOf "empty_line" = 6 ∧
    levelOf "paragraph" = 6 ∧
    levelOf "列表项" = 6 ∧
    levelOf "空行" = 12 ∧
    (paraToData true (.err "timeout") paraBlank).map NodeData.type = some "empty_line" ∧
    hybrid_classify false (.err "no key") infoC3 = some "paragraph" := by
  refine ⟨?_, by decide, by decide, by decide, by decide, by decide, by decide⟩
  intro t h
  simp [levelOf, h]

/-- **C10 witness**: the universally quantified conjunct instantiated at the
concrete type string `'empty_line'`. -/
theorem C10_unmapped_types_rank_six_witness :
    levelOf "empty_line" = 6 :=
  C10_unmapped_types_rank_six.1 "empty_line" (by decide)

/-- **C2 counterexample**: in the tree built from a blank paragraph followed
by a body paragraph, the node created for the blank paragraph — structural
role BlankLine, whose fixed rank in the claim's table (and in `level_map`) is
12 — is an ancestor of the BodyParagraph node of rank 7, and `12 < 7` is
false: the invariant as claimed (over the roles' fixed ranks) does not hold of
the trees the code builds, because the blank node's type string is
`'empty_line'` and is compared at the default rank 6 instead. -/
theorem C2_counterexample_blank_ancestor :
    parse_docx_to_tree true (fun _ => .err "timeout") [paraBlank, paraBody] =
      some (.node rootData [.node emptyLineData [.node bodyData []]]) ∧
    emptyLineData.type = "empty_line" ∧
    bodyData.type = "普通段落" ∧
    levelOf "空行" = 12 ∧
    levelOf "普通段落" = 7 ∧
    ¬ ((12 : Int) < 7) := by
  refine ⟨by decide, by decide, by decide, by decide, by decide, by decide⟩

/-- **C2 amended**: the invariant holds with the rank function the algorithm
actually uses — `level_map` lookup with default 6 for type strings outside the
table (such as `'empty_line'`): for every input sequence and every node of the
built tree other than the synthetic root, every ancestor below the root has
strictly smaller effective rank (equivalently, effective rank strictly
increases along every edge below the root). -/
theorem C2_amended_effective_rank_invariant (items : List NodeData) :
    treeOk (buildTree items) = true := by
  have h := foldl_ok items ⟨[], []⟩ (by rfl)
  simp only [stateOk, Bool.and_eq_true] at h
  simp only [buildTree, treeOk, PNode.children]
  exact collapse_ok _ _ h.1 h.2

/-- **C5** (confirmed): the stack pops while the new node's rank is ≤ the top
node's rank, so two consecutive paragraphs of equal rank become siblings under
the same parent (second conjunct, for any two equal-rank nodes), and the role
sequence [Heading1, Heading2, BodyParagraph, Heading1] produces a tree where
the second Heading1 is a child of the root, sibling of the first, with the
Heading2 and BodyParagraph nested under the first Heading1 (first conjunct). -/
theorem C5_equal_ranks_become_siblings :
    buildTree [h1aData, h2Data, pData, h1bData] =
      .node rootData
        [.node h1aData [.node h2Data [.node pData []]], .node h1bData []] ∧
    (∀ d₁ d₂ : NodeData, levelOf d₁.type = levelOf d₂.type →
      (buildTree [d₁, d₂]).children = [.node d₁ [], .node d₂ []]) := by
  refine ⟨by decide, ?_⟩
  intro d₁ d₂ h
  simp [buildTree, step, popWhile, popWhileAux, collapse, collapseAux,
    Frame.toNode, h, PNode.children]

/-- **C5 witness**: the universally quantified conjunct applied to two
concrete equal-rank nodes (two Heading1 paragraphs). -/
theorem C5_equal_ranks_become_siblings_witness :
    (buildTree [h1aData, h1bData]).children =
      [.node h1aData [], .node h1bData []] :=
  C5_equal_ranks_become_siblings.2 h1aData h1bData (by decide)

/-- **C7** (confirmed): any non-blank text satisfying condition (a) — at
least 80 % of its distinct characters are separator glyphs and its stripped
length is ≥ 3 — or condition (b) — some single separator glyph occurs at
least 3 times (at least 5 for hyphen/underscore) — is classified Separator by
the rule-based fallback. -/
theorem C7_separator_conditions_suffice (info : NodeClassificationInfo)
    (hne : pyStrip info.content.toList ≠ [])
    (hcond : sep_ratio_cond (pyStrip info.content.toList) = true ∨
      sep_count_cond (pyStrip info.content.toList) = true) :
    _fallback_classification info = some "分隔符" := by
  simp only [_fallback_classification]
  rw [pre_list_rules_sep info _ hne hcond]

/-- **C7 witness**: a text of 20 em-dash characters satisfies both conditions
and is classified Separator (the claim's "in particular" scenario). -/
theorem C7_separator_conditions_suffice_witness :
    _fallback_classification infoSep20 = some "分隔符" :=
  C7_separator_conditions_suffice infoSep20 (by decide) (Or.inl (by decide))

set_option maxRecDepth 8192 in
/-- **C6 counterexample**: the text `'•'` followed by 120 `'a'`s (length 121)
reaches the ListItem rule and **is** classified `'列表项'`, although the
claim's condition — bullet/numbering pattern AND total length < 100 — is
false for it: the code's bullet-glyph patterns carry no length bound. -/
theorem C6_counterexample_long_bullet :
    reaches_list_rule infoBullet = true ∧
    _fallback_classification infoBullet = some "列表项" ∧
    list_item_claimed infoBullet.content.toList = false := by
  refine ⟨by decide, by decide, by decide⟩

/-- **C6 amended**: a paragraph that reached the ListItem rule is classified
ListItem exactly when its stripped text starts with a bullet glyph (no length
bound), or starts with a digit or an alphabetic character (any Unicode
letter, not only Latin) with `'.'` among the first 3 characters and length
< 100, or starts with a Chinese numeral with `'、'` among the first 3
characters and length < 100. -/
theorem C6_amended_list_item_iff (info : NodeClassificationInfo)
    (h : reaches_list_rule info = true) :
    _fallback_classification info = some "列表项" ↔
      list_item_amended (pyStrip info.content.toList) = true := by
  unfold reaches_list_rule at h
  rw [Option.isNone_iff_eq_none] at h
  simp only [_fallback_classification]
  rw [h]
  dsimp only
  rw [is_list_item_eq_amended]
  by_cases ha : list_item_amended (pyStrip info.content.toList) = true
  · rw [if_pos ha]
    exact ⟨fun _ => ha, fun _ => rfl⟩
  · rw [if_neg ha]
    exact ⟨fun hc => absurd hc (heading_and_rest_ne_list info _),
      fun hc => absurd hc ha⟩

/-- **C6 witness**: the amended equivalence applied at a concrete short
bullet item, whose hypotheses hold by computation. -/
theorem C6_amended_list_item_iff_witness :
    _fallback_classification infoBulletShort = some "列表项" ↔
      list_item_amended (pyStrip infoBulletShort.content.toList) = true :=
  C6_amended_list_item_iff infoBulletShort (by decide)

end CheckDocFormat
